import Mathlib

/-!
Typelib Ruby binding: Value and Type wrappers

A shallow embedding of `bindings/ruby/ext/value.cc` and of the C side of the
`test_rb_value` suite (`test_suite/ruby/test_rb_value.cc`).

* Process memory is a flat map from addresses to bytes; the C library routines
  the binding calls (`memset`, `memcpy`, `memcmp`) are byte loops over it.
* A `Value` is the pair (address, Type descriptor) of `Typelib::Value`.
* Host (Ruby) objects are identified by their `VALUE`; the heap of class
  objects and the `@wrappers` table are explicit state.
-/

namespace Typelib

/-! ## Memory and the C library -/

/-- One byte of process memory (an `unsigned char`). -/
abbrev Byte := Fin 256

/-- Process memory: a byte at every address. -/
abbrev Memory := Nat → Byte

/-- Store one byte. -/
def Memory.write (mem : Memory) (a : Nat) (b : Byte) : Memory :=
  fun x => if x = a then b else mem x

/-- The `unsigned char` conversion of an `int` argument. -/
def toUChar (c : Nat) : Byte := ⟨c % 256, Nat.mod_lt _ (by decide)⟩

/-- C `memset(s, c, n)`: stores `(unsigned char)c` in the `n` bytes from `s`. -/
def memset (mem : Memory) (s : Nat) (c : Nat) : Nat → Memory
  | 0 => mem
  | n + 1 => (memset mem s c n).write (s + n) (toUChar c)

/-- C `memcpy(dst, src, n)`: a forward byte loop, byte `i` of the source being
read when the bytes before it have been stored. -/
def memcpy (mem : Memory) (dst src : Nat) : Nat → Memory
  | 0 => mem
  | n + 1 =>
    let m := memcpy mem dst src n
    m.write (dst + n) (m (src + n))

/-- C `memcmp(p, q, n)`: zero when the `n` bytes agree, else the difference of
the first pair of bytes that differ (as `unsigned char`). -/
def memcmp (mem : Memory) (p q : Nat) : Nat → Int
  | 0 => 0
  | n + 1 =>
    if mem p = mem q then memcmp mem (p + 1) (q + 1) n
    else ((mem p).val : Int) - ((mem q).val : Int)

/-- The `n` bytes of memory from address `p`, in order. -/
def readBytes (mem : Memory) (p n : Nat) : List Byte :=
  (List.range n).map (fun i => mem (p + i))

/-- Ruby `rb_str_new(ptr, len)`: a new string holding a copy of `len` bytes. -/
def rb_str_new (mem : Memory) (ptr len : Nat) : List Byte :=
  readBytes mem ptr len

/-! ## Type descriptors and Values -/

/-- The categories of `Typelib::Type::Category`. -/
inductive Category where
  | NullType
  | Array
  | Pointer
  | Numeric
  | Enum
  | Compound
  | Opaque
  deriving DecidableEq, Repr

/-- The `sizeof(void*)`, the size of a Pointer descriptor. -/
def POINTER_SIZE : Nat := 8

/-- Modelled from the spec: the Type Descriptor classes of `typelib/type.hh`,
which is not among the sources. A descriptor has a name, a size in bytes and a
category; a Compound has its ordered (field name, offset, field Type) list, a
Pointer its indirected Type, an Array its element Type and element count. -/
inductive TypeDesc where
  | null (name : String)
  | numeric (name : String) (size : Nat)
  | enum (name : String) (size : Nat)
  | opaqueType (name : String) (size : Nat)
  | compound (name : String) (size : Nat) (fields : List (String × Nat × TypeDesc))
  | pointer (indirection : TypeDesc)
  | array (indirection : TypeDesc) (dimension : Nat)

/-- The category of a descriptor, `Type::getCategory()`. -/
def TypeDesc.getCategory : TypeDesc → Category
  | .null _ => .NullType
  | .numeric _ _ => .Numeric
  | .enum _ _ => .Enum
  | .opaqueType _ _ => .Opaque
  | .compound _ _ _ => .Compound
  | .pointer _ => .Pointer
  | .array _ _ => .Array

/-- Modelled from the spec: `Type::getSize()`. The size of an Array is its
element count times its element size, that of a Pointer the size of an
address, that of a NullType zero; the other categories carry their size. -/
def TypeDesc.getSize : TypeDesc → Nat
  | .null _ => 0
  | .numeric _ s => s
  | .enum _ s => s
  | .opaqueType _ s => s
  | .compound _ s _ => s
  | .pointer _ => POINTER_SIZE
  | .array t dim => dim * t.getSize

/-- The name of a descriptor, `Type::getName()`. -/
def TypeDesc.getName : TypeDesc → String
  | .null n => n
  | .numeric n _ => n
  | .enum n _ => n
  | .opaqueType n _ => n
  | .compound n _ _ => n
  | .pointer t => t.getName ++ "*"
  | .array t dim => t.getName ++ "[" ++ toString dim ++ "]"

/-- The class `Typelib::Value`: an address and the descriptor of what lies there. -/
structure Value where
  data : Nat
  type : TypeDesc

namespace Value

/-- The bound address, `Value::getData()`. -/
def getData (v : Value) : Nat := v.data

/-- The bound descriptor, `Value::getType()`. -/
def getType (v : Value) : TypeDesc := v.type

end Value

/-! ## Value methods of value.cc -/

/-- The method `value_to_byte_array`: `rb_str_new(value.getData(), value.getType().getSize())`. -/
def value_to_byte_array (mem : Memory) (self : Value) : List Byte :=
  rb_str_new mem self.getData self.getType.getSize

/-- The method `value_memory_eql_p`: true at once when both Values bind the same address,
otherwise `memcmp` over the size of the receiver's type. -/
def value_memory_eql_p (mem : Memory) (self with_ : Value) : Bool :=
  if self.getData = with_.getData then true
  else
    let type := self.getType
    decide (memcmp mem self.getData with_.getData type.getSize = 0)

/-- The method `value_zero`: the call `memset(value.getData(), value.getType().getSize(), 0)`
as it is written, the size standing in the fill-byte position and `0` in the
count position. Returns the memory and `self`. -/
def value_zero (mem : Memory) (self : Value) : Memory × Value :=
  (memset mem self.getData self.getType.getSize 0, self)

/-! ## Errors and the validated copy -/

/-- The Ruby exceptions the binding can raise, with their message. -/
inductive RbError where
  | ArgError (msg : String)
  | TypeError (msg : String)
  | NoMethodError (msg : String)
  deriving DecidableEq, Repr

/-- The value of `numeric_limits<size_t>::max()` (64-bit `size_t`). -/
def SIZE_MAX : Nat := 2 ^ 64 - 1

/-- The message `typelib_validate_value_arg` raises with. -/
def invalidArgumentMsg : String :=
  "invalid argument for memcpy: only pointers, arrays or strings are allowed"

/-- The function `typelib_validate_value_arg(arg, data, size)`: the capacity of
a Value endpoint is `SIZE_MAX` for a Pointer, the type size for an Array, and
any other category raises; on success the result is `(data, size)`. -/
def typelib_validate_value_arg (arg : Value) : Except RbError (Nat × Nat) :=
  let value := arg
  let type := value.getType
  if type.getCategory = Category.Pointer then
    .ok (value.getData, SIZE_MAX)
  else if type.getCategory = Category.Array then
    .ok (value.getData, type.getSize)
  else
    .error (.ArgError invalidArgumentMsg)

/-- An argument of `Typelib.memcpy`: a Ruby String (`T_STRING`, with its
`RSTRING(s)->ptr` and `RSTRING(s)->len`) or a wrapped Value. -/
inductive Endpoint where
  | string (ptr len : Nat)
  | value (v : Value)

/-- The address and capacity `typelib_memcpy` determines for one argument. -/
def endpointArg : Endpoint → Except RbError (Nat × Nat)
  | .string ptr len => .ok (ptr, len)
  | .value v => typelib_validate_value_arg v

/-- The function `typelib_memcpy(to, from, size)`. Both arguments are resolved
first (destination, then source), then `copy_size` is checked against the
destination capacity, then against the source capacity, and only then does
`memcpy` run. The result is the memory when the call returns or raises,
together with the returned `to` or the exception. `size` is the value
`NUM2UINT` yields; `rb_str_modify` leaves the bytes of `to` as they are. -/
def typelib_memcpy (mem : Memory) (to_ from_ : Endpoint) (size : Nat) :
    Memory × Except RbError Endpoint :=
  match endpointArg to_ with
  | .error e => (mem, .error e)
  | .ok (p_to, size_to) =>
    match endpointArg from_ with
    | .error e => (mem, .error e)
    | .ok (p_from, size_from) =>
      let copy_size := size
      if size_to < copy_size then
        (mem, .error (.ArgError "destination buffer too small"))
      else if size_from < copy_size then
        (mem, .error (.ArgError "source buffer too small"))
      else
        (memcpy mem p_to p_from copy_size, .ok to_)

/-- The two errors `typelib_memcpy` raises when `copy_size` is too large. -/
def isBufferTooSmall : Except RbError Endpoint → Bool
  | .error (.ArgError msg) =>
    msg == "destination buffer too small" || msg == "source buffer too small"
  | _ => false

/-- The error `typelib_validate_value_arg` raises for an inadmissible category. -/
def isInvalidArgument : Except RbError Endpoint → Bool
  | .error (.ArgError msg) => msg == invalidArgumentMsg
  | _ => false

/-! ## Allocation -/

/-- A Ruby object reference. -/
abbrev VALUE := Nat

/-- The identity of a Type descriptor: the address `&type` of the object the
registry owns. -/
abbrev TypePtr := Nat

/-- A Ruby class object, with the instance variables `type_wrap` sets on the
classes it creates. `type` is the `@type` variable: the wrapped `Type*`, or
`none` on a class that has no `@type`. -/
structure RbClass where
  superclass : VALUE
  registry : VALUE
  type : Option TypePtr
  name : String
  null : Bool
  deriving DecidableEq, Repr

/-- A Ruby object: a class, or an object that is not a class (and so does not
respond to `superclass`). -/
inductive RbObject where
  | klass (c : RbClass)
  | plain
  deriving DecidableEq, Repr

/-- The global class handles `cType`, `cIndirect`, `cPointer`, `cArray`,
`cCompound` and `cEnum` of value.cc. -/
structure Classes where
  cType : VALUE
  cIndirect : VALUE
  cPointer : VALUE
  cArray : VALUE
  cCompound : VALUE
  cEnum : VALUE
  deriving DecidableEq, Repr

/-- The table `WrapperMap` (a `std::map<Type const*, VALUE>`), as the list of
its entries. -/
abbrev WrapperMap := List (TypePtr × VALUE)

/-- The lookup `std::map::find`: the wrapper stored under a key, if any. -/
def WrapperMap.find : WrapperMap → TypePtr → Option VALUE
  | [], _ => none
  | (k, v) :: rest, key => if k = key then some v else WrapperMap.find rest key

/-- The insertion `std::map::insert`: adds the entry unless the key is already
present, in which case the map is left as it is. -/
def WrapperMap.insert (m : WrapperMap) (key : TypePtr) (v : VALUE) : WrapperMap :=
  match m.find key with
  | some _ => m
  | none => (key, v) :: m

/-- The keys of a wrapper table. -/
def WrapperMap.keys (m : WrapperMap) : List TypePtr := m.map Prod.fst

/-- The host state seen by `type_wrap`: the Ruby objects (the object `v` is
`objects[v]`) and the `@wrappers` variable of the registry, `none` when it is
`nil`. -/
structure Host where
  objects : List RbObject
  wrappers : Option WrapperMap

/-- The function `cxx2rb::class_of`: the base class for a category. -/
def class_of (g : Classes) (type : TypeDesc) : VALUE :=
  match type.getCategory with
  | .Compound => g.cCompound
  | .Pointer => g.cPointer
  | .Array => g.cArray
  | .Enum => g.cEnum
  | _ => g.cType

/-- The function `cxx2rb::type_wrap(type, registry)`. `types` gives the
descriptor at each address and `type` is the address `&type`. When the table
has an entry for `&type` its wrapper is returned; otherwise a new class is
created below `class_of(type)`, given its instance variables, recorded in the
table and returned. The optional `subclass_initialize` hook is host code and
is taken to leave the objects and the table alone. -/
def type_wrap (types : TypePtr → TypeDesc) (g : Classes) (h : Host)
    (type : TypePtr) (registry : VALUE) : Except RbError (VALUE × Host) :=
  match h.wrappers with
  | none => .error (.ArgError "@wrappers is uninitialized")
  | some wrappers =>
    match wrappers.find type with
    | some w => .ok (w, h)
    | none =>
      let base := class_of g (types type)
      let klass : VALUE := h.objects.length
      let c : RbClass :=
        { superclass := base
          registry := registry
          type := some type
          name := (types type).getName
          null := decide ((types type).getCategory = Category.NullType) }
      .ok (klass, { objects := h.objects ++ [RbObject.klass c]
                    wrappers := some (wrappers.insert type klass) })

/-- Runs `type_wrap` on each descriptor of a list in turn, keeping the state. -/
def type_wrap_all (types : TypePtr → TypeDesc) (g : Classes) (registry : VALUE) :
    Host → List TypePtr → Except RbError Host
  | h, [] => .ok h
  | h, t :: ts =>
    match type_wrap types g h t registry with
    | .error e => .error e
    | .ok (_, h1) => type_wrap_all types g registry h1 ts

/-- Ruby `rb_respond_to(obj, "superclass")`: true of class objects only. -/
def respondsToSuperclass (objects : List RbObject) (v : VALUE) : Bool :=
  match objects[v]? with
  | some (.klass _) => true
  | _ => false

/-- Ruby `obj.superclass`. -/
def rbSuperclass (objects : List RbObject) (v : VALUE) : Except RbError VALUE :=
  match objects[v]? with
  | some (.klass c) => .ok c.superclass
  | _ => .error (.NoMethodError "superclass")

/-- The accessor `rb2cxx::object<Type>(klass)`: the `Type` wrapped in the
`@type` variable that `type_wrap` sets; a class without `@type` holds `nil`
there, which `Data_Get_Struct` rejects with a `TypeError`. -/
def rb2cxx_object_Type (objects : List RbObject) (v : VALUE) : Except RbError TypePtr :=
  match objects[v]? with
  | some (.klass c) =>
    match c.type with
    | some t => .ok t
    | none => .error (.TypeError "wrong argument type nil (expected Data)")
  | _ => .error (.TypeError "wrong argument type nil (expected Data)")

/-- The method `type_equal_operator(rbself, rbwith)`. `isSame` is
`Type::isSame`, the deep structural comparison of two descriptors; the C++
`self == with` on the two descriptors is, by the spec, their identity. -/
def type_equal_operator (types : TypePtr → TypeDesc) (isSame : TypeDesc → TypeDesc → Bool)
    (objects : List RbObject) (rbself rbwith : VALUE) : Except RbError Bool :=
  if ! respondsToSuperclass objects rbwith then .ok false
  else
    match rbSuperclass objects rbself, rbSuperclass objects rbwith with
    | .error e, _ => .error e
    | _, .error e => .error e
    | .ok s1, .ok s2 =>
      if s1 ≠ s2 then .ok false
      else
        match rb2cxx_object_Type objects rbself with
        | .error e => .error e
        | .ok self =>
          match rb2cxx_object_Type objects rbwith with
          | .error e => .error e
          | .ok with_ =>
            let result := decide (self = with_) || isSame (types self) (types with_)
            .ok result

/-- A `VALUE` is the wrapper `type_wrap` makes for the descriptor at `t`: a
class below `class_of` of the descriptor whose `@type` is `t`. -/
def IsTypeWrapper (types : TypePtr → TypeDesc) (g : Classes) (objects : List RbObject)
    (v : VALUE) (t : TypePtr) : Prop :=
  ∃ c, objects[v]? = some (RbObject.klass c) ∧
    c.superclass = class_of g (types t) ∧ c.type = some t

/-! ## The C side of the test_rb_value suite -/

/-- Modelled from the spec: the layout of `struct A` of `test_cimport.1`, which
is not among the sources: four `int32` fields `a`, `b`, `c`, `d`. The record
holds the offset of each field. -/
structure LayoutA where
  a : Nat
  b : Nat
  c : Nat
  d : Nat
  deriving DecidableEq, Repr

/-- The layout of four consecutive `int32` fields. -/
def LayoutA.packed : LayoutA := { a := 0, b := 4, c := 8, d := 12 }

/-- The fields of a layout occupy pairwise disjoint 4-byte ranges. -/
def LayoutA.Disjoint (l : LayoutA) : Prop :=
  (l.a + 4 ≤ l.b ∨ l.b + 4 ≤ l.a) ∧ (l.a + 4 ≤ l.c ∨ l.c + 4 ≤ l.a) ∧
  (l.a + 4 ≤ l.d ∨ l.d + 4 ≤ l.a) ∧ (l.b + 4 ≤ l.c ∨ l.c + 4 ≤ l.b) ∧
  (l.b + 4 ≤ l.d ∨ l.d + 4 ≤ l.b) ∧ (l.c + 4 ≤ l.d ∨ l.d + 4 ≤ l.c)

instance LayoutA.decidableDisjoint (l : LayoutA) : Decidable l.Disjoint := by
  unfold LayoutA.Disjoint
  infer_instance

/-- Reads an `int32` (little-endian, two's complement) at address `p`. -/
def read_int32 (mem : Memory) (p : Nat) : Int :=
  let u : Nat := (mem p).val + 256 * (mem (p + 1)).val + 65536 * (mem (p + 2)).val
    + 16777216 * (mem (p + 3)).val
  if u < 2147483648 then (u : Int) else (u : Int) - 4294967296

/-- Stores an `int32` (little-endian, two's complement) at address `p`. -/
def write_int32 (mem : Memory) (p : Nat) (v : Int) : Memory :=
  let u : Nat := (v % 4294967296).toNat
  (((mem.write p (toUChar u)).write (p + 1) (toUChar (u / 256))).write (p + 2)
    (toUChar (u / 65536))).write (p + 3) (toUChar (u / 16777216))

/-- The check `do_check_struct_A_value(a)` on the struct at address `p`. -/
def do_check_struct_A_value (l : LayoutA) (mem : Memory) (p : Nat) : Bool :=
  if read_int32 mem (p + l.a) = 10 ∧ read_int32 mem (p + l.b) = 20 ∧
      read_int32 mem (p + l.c) = 30 ∧ read_int32 mem (p + l.d) = 40 then true
  else false

/-- The assignment `do_set_struct_A_value(a)` on the struct at address `p`. -/
def do_set_struct_A_value (l : LayoutA) (mem : Memory) (p : Nat) : Memory :=
  let m1 := write_int32 mem (p + l.a) 10
  let m2 := write_int32 m1 (p + l.b) 20
  let m3 := write_int32 m2 (p + l.c) 30
  write_int32 m3 (p + l.d) 40

/-- The method `check_struct_A_value(self, ra)`: the Value's data read as an `A`. -/
def check_struct_A_value (l : LayoutA) (mem : Memory) (ra : Value) : Bool :=
  if do_check_struct_A_value l mem ra.getData then true else false

/-- The method `set_struct_A_value(self, ra)`: sets the fields and returns `ra`. -/
def set_struct_A_value (l : LayoutA) (mem : Memory) (ra : Value) : Memory × Value :=
  (do_set_struct_A_value l mem ra.getData, ra)

/-! ## Sample data -/

/-- Sample class handles: six distinct objects. -/
def sampleClasses : Classes :=
  { cType := 0, cIndirect := 1, cPointer := 2, cArray := 3, cCompound := 4, cEnum := 5 }

/-- A sample `isSame`: equal category, size and name. -/
def sampleIsSame (a b : TypeDesc) : Bool :=
  decide (a.getCategory = b.getCategory) && decide (a.getSize = b.getSize) &&
    decide (a.getName = b.getName)

/-- Sample descriptors: an `int` at every address. -/
def sampleTypes : TypePtr → TypeDesc := fun _ => TypeDesc.numeric "int" 4

/-- Sample objects: at 6 and 7, the wrappers of the descriptors at 0 and 1. -/
def sampleObjects : List RbObject :=
  [RbObject.klass ⟨100, 0, none, "Typelib::Type", false⟩,
   RbObject.klass ⟨0, 0, none, "Typelib::IndirectType", false⟩,
   RbObject.klass ⟨1, 0, none, "Typelib::PointerType", false⟩,
   RbObject.klass ⟨1, 0, none, "Typelib::ArrayType", false⟩,
   RbObject.klass ⟨0, 0, none, "Typelib::CompoundType", false⟩,
   RbObject.klass ⟨0, 0, none, "Typelib::EnumType", false⟩,
   RbObject.klass ⟨0, 9, some 0, "int", false⟩,
   RbObject.klass ⟨0, 9, some 1, "int", false⟩]

/-! ## Lemmas on the C library routines -/

theorem write_same (mem : Memory) (a : Nat) (b : Byte) : mem.write a b a = b := by
  simp [Memory.write]

theorem write_other (mem : Memory) (a x : Nat) (b : Byte) (h : x ≠ a) :
    mem.write a b x = mem x := by
  simp [Memory.write, h]

theorem memset_inside (mem : Memory) (s c n i : Nat) (h : i < n) :
    memset mem s c n (s + i) = toUChar c := by
  induction n with
  | zero => omega
  | succ k ih =>
    by_cases hik : i = k
    · subst hik
      simp [memset, write_same]
    · have hne : s + i ≠ s + k := by omega
      have hlt : i < k := by omega
      simp [memset, write_other _ _ _ _ hne, ih hlt]

theorem memcpy_outside (mem : Memory) (dst src n a : Nat) (h : a < dst ∨ dst + n ≤ a) :
    memcpy mem dst src n a = mem a := by
  induction n with
  | zero => rfl
  | succ k ih =>
    have hne : a ≠ dst + k := by omega
    have hk : a < dst ∨ dst + k ≤ a := by omega
    simp [memcpy, write_other _ _ _ _ hne, ih hk]

theorem memcpy_inside (mem : Memory) (dst src n m i : Nat) (hn : n ≤ m)
    (hdis : dst + m ≤ src ∨ src + m ≤ dst) (h : i < n) :
    memcpy mem dst src n (dst + i) = mem (src + i) := by
  induction n with
  | zero => omega
  | succ k ih =>
    by_cases hik : i = k
    · subst hik
      have hsrc : src + i < dst ∨ dst + i ≤ src + i := by omega
      simp [memcpy, write_same, memcpy_outside mem dst src i (src + i) hsrc]
    · have hne : dst + i ≠ dst + k := by omega
      have hlt : i < k := by omega
      have hk : k ≤ m := by omega
      simp [memcpy, write_other _ _ _ _ hne, ih hk hlt]

theorem memcmp_eq_zero_iff (mem : Memory) (n : Nat) :
    ∀ p q : Nat, memcmp mem p q n = 0 ↔ ∀ i, i < n → mem (p + i) = mem (q + i) := by
  induction n with
  | zero => intro p q; simp [memcmp]
  | succ k ih =>
    intro p q
    by_cases hpq : mem p = mem q
    · simp only [memcmp, hpq, if_true]
      rw [ih (p + 1) (q + 1)]
      constructor
      · intro h i hi
        cases i with
        | zero => simpa using hpq
        | succ j =>
          have := h j (by omega)
          have e1 : p + (j + 1) = p + 1 + j := by omega
          have e2 : q + (j + 1) = q + 1 + j := by omega
          rw [e1, e2]; exact this
      · intro h i hi
        have := h (i + 1) (by omega)
        have e1 : p + (i + 1) = p + 1 + i := by omega
        have e2 : q + (i + 1) = q + 1 + i := by omega
        rw [e1, e2] at this; exact this
    · simp only [memcmp, hpq, if_false]
      constructor
      · intro h
        exfalso
        apply hpq
        apply Fin.ext
        omega
      · intro h
        exfalso
        exact hpq (by simpa using h 0 (by omega))

theorem readBytes_length (mem : Memory) (p n : Nat) : (readBytes mem p n).length = n := by
  simp [readBytes]

theorem readBytes_getElem? (mem : Memory) (p n i : Nat) :
    (readBytes mem p n)[i]? = if i < n then some (mem (p + i)) else none := by
  by_cases h : i < n
  · simp [readBytes, h, List.getElem?_map, List.getElem?_range h]
  · simp [readBytes, h, List.getElem?_map]
    omega

/-- C1 (as the code stands): `value_zero` on a 4-byte Value whose region holds
four bytes `0xFF` leaves every byte of the region at `0xFF`: the `memset` call
has a count of zero, so none of the `type.size` bytes is set to 0. -/
theorem value_zero_failing_input :
    readBytes (value_zero (fun _ => 255) { data := 16, type := TypeDesc.numeric "int32_t" 4 }).1
      16 4 = [255, 255, 255, 255] := by
  decide

/-- C9: `value_to_byte_array` returns exactly `type.size` bytes, the `i`-th of
which is the `i`-th byte of the bound region, and a Value bound anew to the
same address and type yields the same bytes. -/
theorem value_to_byte_array_spec (mem : Memory) (v : Value) :
    (value_to_byte_array mem v).length = v.type.getSize ∧
    (∀ i, (value_to_byte_array mem v)[i]? =
      if i < v.type.getSize then some (mem (v.data + i)) else none) ∧
    value_to_byte_array mem { data := v.getData, type := v.getType } =
      value_to_byte_array mem v := by
  refine ⟨?_, ?_, rfl⟩
  · simp [value_to_byte_array, rb_str_new, readBytes_length, Value.getType]
  · intro i
    simp [value_to_byte_array, rb_str_new, readBytes_getElem?, Value.getType, Value.getData]

/-- C6: for two Values of equal type, `value_memory_eql_p` is true exactly when
the `type.size` bytes of the two regions agree position by position; it is
reflexive, symmetric, and true whenever both Values bind the same address. -/
theorem value_memory_eql_p_spec (mem : Memory) (a b : Value) (h : a.type = b.type) :
    (value_memory_eql_p mem a b = true ↔
      ∀ i, i < a.type.getSize → mem (a.data + i) = mem (b.data + i)) ∧
    value_memory_eql_p mem a a = true ∧
    value_memory_eql_p mem a b = value_memory_eql_p mem b a ∧
    (a.data = b.data → value_memory_eql_p mem a b = true) := by
  have key : ∀ x y : Value, value_memory_eql_p mem x y = true ↔
      ∀ i, i < x.type.getSize → mem (x.data + i) = mem (y.data + i) := by
    intro x y
    unfold value_memory_eql_p
    by_cases hxy : x.getData = y.getData
    · have hd : x.data = y.data := hxy
      simp [hxy, hd]
    · have hd : ¬ x.data = y.data := hxy
      simp [hxy, hd, memcmp_eq_zero_iff, Value.getData, Value.getType]
  refine ⟨key a b, ?_, ?_, ?_⟩
  · simp [value_memory_eql_p]
  · rw [Bool.eq_iff_iff, key a b, key b a, h]
    constructor
    · intro hab i hi; exact (hab i hi).symm
    · intro hba i hi; exact (hba i hi).symm
  · intro hd
    simp [value_memory_eql_p, Value.getData, hd]

/-- A witness for C6: two 2-byte Values at different addresses over a memory
of equal bytes. -/
theorem value_memory_eql_p_spec_witness :
    (value_memory_eql_p (fun _ => 7) { data := 0, type := TypeDesc.numeric "short" 2 }
        { data := 8, type := TypeDesc.numeric "short" 2 } = true ↔
      ∀ i, i < (TypeDesc.numeric "short" 2).getSize →
        (fun _ => 7 : Memory) (0 + i) = (fun _ => 7 : Memory) (8 + i)) ∧
    value_memory_eql_p (fun _ => 7) { data := 0, type := TypeDesc.numeric "short" 2 }
        { data := 0, type := TypeDesc.numeric "short" 2 } = true ∧
    value_memory_eql_p (fun _ => 7) { data := 0, type := TypeDesc.numeric "short" 2 }
        { data := 8, type := TypeDesc.numeric "short" 2 } =
      value_memory_eql_p (fun _ => 7) { data := 8, type := TypeDesc.numeric "short" 2 }
        { data := 0, type := TypeDesc.numeric "short" 2 } ∧
    ((0 : Nat) = 8 → value_memory_eql_p (fun _ => 7)
        { data := 0, type := TypeDesc.numeric "short" 2 }
        { data := 8, type := TypeDesc.numeric "short" 2 } = true) :=
  value_memory_eql_p_spec (fun _ => 7) { data := 0, type := TypeDesc.numeric "short" 2 }
    { data := 8, type := TypeDesc.numeric "short" 2 } rfl

/-! ## Claims on the validated copy -/

theorem endpointArg_invalid (v : Value) (hp : v.type.getCategory ≠ Category.Pointer)
    (ha : v.type.getCategory ≠ Category.Array) :
    endpointArg (Endpoint.value v) = .error (.ArgError invalidArgumentMsg) := by
  simp [endpointArg, typelib_validate_value_arg, Value.getType, hp, ha]

theorem isInvalidArgument_error :
    isInvalidArgument (.error (.ArgError invalidArgumentMsg)) = true := by
  simp [isInvalidArgument]

/-- C2: when both endpoints have a determined capacity and `byteCount` exceeds
that of the destination or that of the source, `typelib_memcpy` raises a
buffer-too-small error and memory, the destination region included, is
byte for byte what it was before the call. -/
theorem typelib_memcpy_buffer_too_small (mem : Memory) (to_ from_ : Endpoint)
    (size p_to size_to p_from size_from : Nat)
    (hto : endpointArg to_ = .ok (p_to, size_to))
    (hfrom : endpointArg from_ = .ok (p_from, size_from))
    (h : size_to < size ∨ size_from < size) :
    isBufferTooSmall (typelib_memcpy mem to_ from_ size).2 = true ∧
    (typelib_memcpy mem to_ from_ size).1 = mem := by
  unfold typelib_memcpy
  rw [hto]
  simp only [hfrom]
  by_cases h1 : size_to < size
  · simp [h1, isBufferTooSmall]
  · have h2 : size_from < size := by
      cases h with
      | inl h => exact absurd h h1
      | inr h => exact h
    simp [h1, h2, isBufferTooSmall]

/-- A witness for C2: a 4-byte source array copied into a 2-byte destination
array with `byteCount = 4`. -/
theorem typelib_memcpy_buffer_too_small_witness :
    isBufferTooSmall (typelib_memcpy (fun _ => 9)
      (Endpoint.value { data := 0, type := TypeDesc.array (TypeDesc.numeric "char" 1) 2 })
      (Endpoint.value { data := 8, type := TypeDesc.array (TypeDesc.numeric "char" 1) 4 })
      4).2 = true ∧
    (typelib_memcpy (fun _ => 9)
      (Endpoint.value { data := 0, type := TypeDesc.array (TypeDesc.numeric "char" 1) 2 })
      (Endpoint.value { data := 8, type := TypeDesc.array (TypeDesc.numeric "char" 1) 4 })
      4).1 = (fun _ => 9) :=
  typelib_memcpy_buffer_too_small (fun _ => 9)
    (Endpoint.value { data := 0, type := TypeDesc.array (TypeDesc.numeric "char" 1) 2 })
    (Endpoint.value { data := 8, type := TypeDesc.array (TypeDesc.numeric "char" 1) 4 })
    4 0 2 8 4 rfl rfl (Or.inl (by decide))

/-- C3: the capacity `typelib_validate_value_arg` determines for a Value is
`SIZE_MAX` (the largest `size_t`) when its category is Pointer and element
count times element size when it is Array; with a Value of any other category
as destination or as source, `typelib_memcpy` raises the invalid-argument
error and leaves memory as it was. -/
theorem typelib_validate_value_arg_capacity (v : Value) :
    (v.type.getCategory = Category.Pointer →
      typelib_validate_value_arg v = .ok (v.data, SIZE_MAX) ∧ SIZE_MAX = 2 ^ 64 - 1) ∧
    (v.type.getCategory = Category.Array →
      ∃ elem dim, v.type = TypeDesc.array elem dim ∧
        typelib_validate_value_arg v = .ok (v.data, dim * elem.getSize)) ∧
    (v.type.getCategory ≠ Category.Pointer → v.type.getCategory ≠ Category.Array →
      ∀ (mem : Memory) (other : Endpoint) (size : Nat),
        isInvalidArgument (typelib_memcpy mem (Endpoint.value v) other size).2 = true ∧
        (typelib_memcpy mem (Endpoint.value v) other size).1 = mem ∧
        isInvalidArgument (typelib_memcpy mem other (Endpoint.value v) size).2 = true ∧
        (typelib_memcpy mem other (Endpoint.value v) size).1 = mem) := by
  refine ⟨?_, ?_, ?_⟩
  · intro hp
    simp [typelib_validate_value_arg, Value.getType, Value.getData, hp, SIZE_MAX]
  · intro ha
    cases hv : v.type with
    | array elem dim =>
      refine ⟨elem, dim, rfl, ?_⟩
      simp [typelib_validate_value_arg, Value.getType, Value.getData, hv,
        TypeDesc.getCategory, TypeDesc.getSize]
    | null n => rw [hv] at ha; simp [TypeDesc.getCategory] at ha
    | numeric n s => rw [hv] at ha; simp [TypeDesc.getCategory] at ha
    | enum n s => rw [hv] at ha; simp [TypeDesc.getCategory] at ha
    | opaqueType n s => rw [hv] at ha; simp [TypeDesc.getCategory] at ha
    | compound n s f => rw [hv] at ha; simp [TypeDesc.getCategory] at ha
    | pointer t => rw [hv] at ha; simp [TypeDesc.getCategory] at ha
  · intro hp ha mem other size
    have hv := endpointArg_invalid v hp ha
    refine ⟨?_, ?_, ?_, ?_⟩
    · simp [typelib_memcpy, hv, isInvalidArgument_error]
    · simp [typelib_memcpy, hv]
    · cases ho : endpointArg other with
      | error e =>
        cases other with
        | string p l => simp [endpointArg] at ho
        | value w =>
          have : e = .ArgError invalidArgumentMsg := by
            simp only [endpointArg, typelib_validate_value_arg] at ho
            split at ho
            · simp at ho
            · split at ho
              · simp at ho
              · simpa using ho.symm
          simp [typelib_memcpy, ho, this, isInvalidArgument_error]
      | ok r =>
        obtain ⟨p, s⟩ := r
        simp [typelib_memcpy, ho, hv, isInvalidArgument_error]
    · cases ho : endpointArg other with
      | error e => simp [typelib_memcpy, ho]
      | ok r =>
        obtain ⟨p, s⟩ := r
        simp [typelib_memcpy, ho, hv]

/-- C4: for admissible endpoints whose copied ranges do not overlap and a
`byteCount` within both capacities, `typelib_memcpy` returns the `to` it was
given, the first `byteCount` bytes of the destination become the first
`byteCount` bytes of the source, and every other byte of memory is unchanged:
the destination from offset `byteCount` on, and a source of any length that
lies clear of the bytes written. -/
theorem typelib_memcpy_success (mem : Memory) (to_ from_ : Endpoint)
    (size p_to size_to p_from size_from : Nat)
    (hto : endpointArg to_ = .ok (p_to, size_to))
    (hfrom : endpointArg from_ = .ok (p_from, size_from))
    (h1 : size ≤ size_to) (h2 : size ≤ size_from)
    (hdis : p_to + size ≤ p_from ∨ p_from + size ≤ p_to) :
    (typelib_memcpy mem to_ from_ size).2 = .ok to_ ∧
    (∀ i, i < size → (typelib_memcpy mem to_ from_ size).1 (p_to + i) = mem (p_from + i)) ∧
    (∀ a, (a < p_to ∨ p_to + size ≤ a) → (typelib_memcpy mem to_ from_ size).1 a = mem a) ∧
    (∀ len i, (p_to + size ≤ p_from ∨ p_from + len ≤ p_to) → i < len →
      (typelib_memcpy mem to_ from_ size).1 (p_from + i) = mem (p_from + i)) := by
  have hr : typelib_memcpy mem to_ from_ size = (memcpy mem p_to p_from size, .ok to_) := by
    unfold typelib_memcpy
    rw [hto]
    simp only [hfrom]
    have n1 : ¬ size_to < size := by omega
    have n2 : ¬ size_from < size := by omega
    simp [n1, n2]
  rw [hr]
  refine ⟨rfl, ?_, ?_, ?_⟩
  · intro i hi
    exact memcpy_inside mem p_to p_from size size i (Nat.le_refl _) hdis hi
  · intro a ha
    exact memcpy_outside mem p_to p_from size a ha
  · intro len i hlen hi
    exact memcpy_outside mem p_to p_from size (p_from + i) (by omega)

/-- A witness for C4: three bytes of a 4-byte String copied into a 4-byte
array. -/
theorem typelib_memcpy_success_witness :
    (typelib_memcpy (fun a => if a < 4 then 1 else 2)
      (Endpoint.value { data := 8, type := TypeDesc.array (TypeDesc.numeric "char" 1) 4 })
      (Endpoint.string 0 4) 3).2 =
      .ok (Endpoint.value { data := 8, type := TypeDesc.array (TypeDesc.numeric "char" 1) 4 }) ∧
    (∀ i, i < 3 → (typelib_memcpy (fun a => if a < 4 then 1 else 2)
      (Endpoint.value { data := 8, type := TypeDesc.array (TypeDesc.numeric "char" 1) 4 })
      (Endpoint.string 0 4) 3).1 (8 + i) = (fun a => if a < 4 then 1 else 2 : Memory) (0 + i)) ∧
    (∀ a, (a < 8 ∨ 8 + 3 ≤ a) → (typelib_memcpy (fun a => if a < 4 then 1 else 2)
      (Endpoint.value { data := 8, type := TypeDesc.array (TypeDesc.numeric "char" 1) 4 })
      (Endpoint.string 0 4) 3).1 a = (fun a => if a < 4 then 1 else 2 : Memory) a) ∧
    (∀ len i, (8 + 3 ≤ 0 ∨ 0 + len ≤ 8) → i < len → (typelib_memcpy (fun a => if a < 4 then 1 else 2)
      (Endpoint.value { data := 8, type := TypeDesc.array (TypeDesc.numeric "char" 1) 4 })
      (Endpoint.string 0 4) 3).1 (0 + i) = (fun a => if a < 4 then 1 else 2 : Memory) (0 + i)) :=
  typelib_memcpy_success (fun a => if a < 4 then 1 else 2)
    (Endpoint.value { data := 8, type := TypeDesc.array (TypeDesc.numeric "char" 1) 4 })
    (Endpoint.string 0 4) 3 8 4 0 4 rfl rfl (by decide) (by decide) (Or.inr (by decide))

/-! ## Claims on allocation -/

theorem find_none_not_mem (m : WrapperMap) (t : TypePtr) (h : m.find t = none) :
    t ∉ m.keys := by
  induction m with
  | nil => simp [WrapperMap.keys]
  | cons e rest ih =>
    obtain ⟨k, v⟩ := e
    simp only [WrapperMap.find] at h
    by_cases hk : k = t
    · simp [hk] at h
    · simp only [hk, if_false] at h
      have := ih h
      simp only [WrapperMap.keys, List.map_cons, List.mem_cons, not_or] at this ⊢
      exact ⟨fun e => hk e.symm, this⟩

theorem find_insert_self (m : WrapperMap) (t : TypePtr) (w : VALUE) (h : m.find t = none) :
    (m.insert t w).find t = some w := by
  simp [WrapperMap.insert, h, WrapperMap.find]

theorem find_insert_keep (m : WrapperMap) (t k : TypePtr) (w v : VALUE)
    (h : m.find t = none) (hk : m.find k = some v) : (m.insert t w).find k = some v := by
  have hne : t ≠ k := by
    intro e
    rw [e, hk] at h
    cases h
  simp [WrapperMap.insert, h, WrapperMap.find, hne, hk]

theorem keys_insert_nodup (m : WrapperMap) (t : TypePtr) (w : VALUE) (h : m.keys.Nodup) :
    (m.insert t w).keys.Nodup := by
  unfold WrapperMap.insert
  cases hf : m.find t with
  | some v => simpa using h
  | none =>
    have hn := find_none_not_mem m t hf
    simp only [WrapperMap.keys, List.map_cons, List.nodup_cons] at hn ⊢
    exact ⟨hn, h⟩

theorem type_wrap_step (types : TypePtr → TypeDesc) (g : Classes) (registry : VALUE)
    (h : Host) (m : WrapperMap) (hw : h.wrappers = some m) (hnd : m.keys.Nodup) (t : TypePtr) :
    ∃ w h1 m1, type_wrap types g h t registry = .ok (w, h1) ∧ h1.wrappers = some m1 ∧
      m1.keys.Nodup ∧ m1.find t = some w ∧ (∀ k v, m.find k = some v → m1.find k = some v) := by
  cases hf : m.find t with
  | some w =>
    refine ⟨w, h, m, ?_, hw, hnd, hf, fun _ _ hk => hk⟩
    simp [type_wrap, hw, hf]
  | none =>
    refine ⟨h.objects.length, ⟨h.objects ++ [RbObject.klass ⟨class_of g (types t), registry, some t,
        (types t).getName, decide ((types t).getCategory = Category.NullType)⟩],
      some (m.insert t h.objects.length)⟩, m.insert t h.objects.length, ?_, rfl,
      keys_insert_nodup m t _ hnd, find_insert_self m t _ hf,
      fun k v hk => find_insert_keep m t k _ v hf hk⟩
    simp [type_wrap, hw, hf]

theorem type_wrap_all_inv (types : TypePtr → TypeDesc) (g : Classes) (registry : VALUE)
    (ts : List TypePtr) :
    ∀ (h : Host) (m : WrapperMap), h.wrappers = some m → m.keys.Nodup →
      ∃ h2 m2, type_wrap_all types g registry h ts = .ok h2 ∧ h2.wrappers = some m2 ∧
        m2.keys.Nodup ∧ (∀ k v, m.find k = some v → m2.find k = some v) ∧
        ∀ k, k ∈ ts → (m2.find k).isSome = true := by
  induction ts with
  | nil =>
    intro h m hw hnd
    exact ⟨h, m, rfl, hw, hnd, fun _ _ hk => hk, by simp⟩
  | cons t rest ih =>
    intro h m hw hnd
    obtain ⟨w, h1, m1, hr, hw1, hnd1, hf1, hkeep1⟩ := type_wrap_step types g registry h m hw hnd t
    obtain ⟨h2, m2, hr2, hw2, hnd2, hkeep2, hall2⟩ := ih h1 m1 hw1 hnd1
    refine ⟨h2, m2, ?_, hw2, hnd2, fun k v hk => hkeep2 k v (hkeep1 k v hk), ?_⟩
    · simp [type_wrap_all, hr, hr2]
    · intro k hk
      rcases List.mem_cons.mp hk with rfl | hk
      · simp [hkeep2 _ _ hf1]
      · exact hall2 k hk

/-- C8: over a wrapper table with one entry per key, `type_wrap` on a
descriptor without an entry creates a class below `class_of` of the
descriptor, records it and returns it, and the next call returns that same
class and changes nothing; on a descriptor with an entry it returns the
recorded wrapper and changes nothing; `class_of` is the Compound, Pointer,
Array or Enum class for these categories and the generic class otherwise; and
after any sequence of `type_wrap` calls the table still has one entry per
key, with the earlier entries kept. -/
theorem type_wrap_single_wrapper (types : TypePtr → TypeDesc) (g : Classes) (registry : VALUE)
    (h : Host) (m : WrapperMap) (hw : h.wrappers = some m) (hnd : m.keys.Nodup) (t : TypePtr) :
    (m.find t = none →
      ∃ h1, type_wrap types g h t registry = .ok (h.objects.length, h1) ∧
        IsTypeWrapper types g h1.objects h.objects.length t ∧
        h1.wrappers = some ((t, h.objects.length) :: m) ∧
        type_wrap types g h1 t registry = .ok (h.objects.length, h1)) ∧
    (∀ w, m.find t = some w → type_wrap types g h t registry = .ok (w, h)) ∧
    (∀ d : TypeDesc, class_of g d =
      if d.getCategory = Category.Compound then g.cCompound
      else if d.getCategory = Category.Pointer then g.cPointer
      else if d.getCategory = Category.Array then g.cArray
      else if d.getCategory = Category.Enum then g.cEnum
      else g.cType) ∧
    (∀ ts : List TypePtr, ∃ h2 m2, type_wrap_all types g registry h ts = .ok h2 ∧
      h2.wrappers = some m2 ∧ m2.keys.Nodup ∧
      (∀ k v, m.find k = some v → m2.find k = some v) ∧
      ∀ k, k ∈ ts → (m2.find k).isSome = true) := by
  refine ⟨?_, ?_, ?_, ?_⟩
  · intro hf
    refine ⟨⟨h.objects ++ [RbObject.klass ⟨class_of g (types t), registry, some t,
        (types t).getName, decide ((types t).getCategory = Category.NullType)⟩],
      some (m.insert t h.objects.length)⟩, ?_, ?_, ?_, ?_⟩
    · simp only [type_wrap, hw, hf]
    · refine ⟨⟨class_of g (types t), registry, some t, (types t).getName,
        decide ((types t).getCategory = Category.NullType)⟩, ?_, rfl, rfl⟩
      simp
    · simp [WrapperMap.insert, hf]
    · simp [type_wrap, WrapperMap.insert, hf, WrapperMap.find]
  · intro w hf
    simp [type_wrap, hw, hf]
  · intro d
    unfold class_of
    cases d.getCategory <;> simp
  · intro ts
    exact type_wrap_all_inv types g registry ts h m hw hnd

/-- A witness for C8: three calls on a registry whose table is still empty. -/
theorem type_wrap_single_wrapper_witness :
    ∃ h2 m2,
      type_wrap_all (fun _ => TypeDesc.numeric "int" 4)
        sampleClasses 9 { objects := [], wrappers := some [] } [0, 0, 1] = .ok h2 ∧
      h2.wrappers = some m2 ∧ m2.keys.Nodup ∧
      (∀ k v, WrapperMap.find [] k = some v → m2.find k = some v) ∧
      ∀ k, k ∈ [0, 0, 1] → (m2.find k).isSome = true :=
  (type_wrap_single_wrapper (fun _ => TypeDesc.numeric "int" 4) sampleClasses
    9 { objects := [], wrappers := some [] } [] rfl (by simp [WrapperMap.keys]) 0).2.2.2
    [0, 0, 1]

theorem class_of_eq_of_category (g : Classes) (a b : TypeDesc)
    (h : a.getCategory = b.getCategory) : class_of g a = class_of g b := by
  simp [class_of, h]

/-- C7 (as the code stands): with `Typelib::Type` as object 0, a class made
below it that is no type wrapper (it has no `@type`) as object 1 and the
wrapper of a Numeric descriptor as object 2, comparing the wrapper with the
class passes both `superclass` guards and does not return false: it raises. -/
theorem type_equal_operator_non_wrapper :
    rb2cxx_object_Type
      [RbObject.klass ⟨100, 0, none, "Typelib::Type", false⟩,
       RbObject.klass ⟨0, 0, none, "", false⟩,
       RbObject.klass ⟨0, 9, some 0, "int", false⟩] 1 =
      .error (.TypeError "wrong argument type nil (expected Data)") ∧
    type_equal_operator (fun _ => TypeDesc.numeric "int" 4) (fun _ _ => false)
      [RbObject.klass ⟨100, 0, none, "Typelib::Type", false⟩,
       RbObject.klass ⟨0, 0, none, "", false⟩,
       RbObject.klass ⟨0, 9, some 0, "int", false⟩] 2 1 ≠ .ok false := by
  refine ⟨rfl, ?_⟩
  intro h
  simp [type_equal_operator, respondsToSuperclass, rbSuperclass, rb2cxx_object_Type] at h

/-- C7 (amended): for two wrappers made by `type_wrap`, over an `isSame` that
compares categories, `type_equal_operator` returns true exactly when the two
descriptors are the same object or `isSame`, so never false for two
descriptors that are `isSame`; and it returns false for an operand that does
not respond to `superclass`, or whose superclass is not that of the
receiver. -/
theorem type_equal_operator_spec (types : TypePtr → TypeDesc)
    (isSame : TypeDesc → TypeDesc → Bool) (g : Classes) (objects : List RbObject)
    (rbself rbwith : VALUE) (p q : TypePtr)
    (hsame : ∀ a b, isSame a b = true → a.getCategory = b.getCategory)
    (hself : IsTypeWrapper types g objects rbself p)
    (hwith : IsTypeWrapper types g objects rbwith q) :
    type_equal_operator types isSame objects rbself rbwith =
      .ok (decide (p = q) || isSame (types p) (types q)) ∧
    (type_equal_operator types isSame objects rbself rbwith = .ok true ↔
      (p = q ∨ isSame (types p) (types q) = true)) ∧
    (isSame (types p) (types q) = true →
      type_equal_operator types isSame objects rbself rbwith = .ok true) ∧
    (∀ other, respondsToSuperclass objects other = false →
      type_equal_operator types isSame objects rbself other = .ok false) ∧
    (∀ other s, rbSuperclass objects other = .ok s → s ≠ class_of g (types p) →
      type_equal_operator types isSame objects rbself other = .ok false) := by
  obtain ⟨c1, ho1, hs1, ht1⟩ := hself
  obtain ⟨c2, ho2, hs2, ht2⟩ := hwith
  have hmain : type_equal_operator types isSame objects rbself rbwith =
      .ok (decide (p = q) || isSame (types p) (types q)) := by
    by_cases hc : class_of g (types p) = class_of g (types q)
    · simp [type_equal_operator, respondsToSuperclass, rbSuperclass, rb2cxx_object_Type,
        ho1, ho2, hs1, hs2, ht1, ht2, hc]
    · have hpq : p ≠ q := by
        intro e
        rw [e] at hc
        exact hc rfl
      have hns : isSame (types p) (types q) = false := by
        cases hb : isSame (types p) (types q) with
        | false => rfl
        | true => exact absurd (class_of_eq_of_category g _ _ (hsame _ _ hb)) hc
      simp [type_equal_operator, respondsToSuperclass, rbSuperclass,
        ho1, ho2, hs1, hs2, hc, hpq, hns]
  refine ⟨hmain, ?_, ?_, ?_, ?_⟩
  · rw [hmain]
    simp
  · intro hb
    rw [hmain, hb]
    simp
  · intro other hr
    simp [type_equal_operator, hr]
  · intro other s hsup hne
    have hresp : respondsToSuperclass objects other = true := by
      unfold rbSuperclass at hsup
      unfold respondsToSuperclass
      split at hsup
      · rename_i c hc
        simp [hc]
      · cases hsup
    have hne2 : ¬ class_of g (types p) = s := fun e => hne e.symm
    have hsup1 : rbSuperclass objects rbself = .ok (class_of g (types p)) := by
      simp [rbSuperclass, ho1, hs1]
    simp [type_equal_operator, hresp, hsup1, hsup, hne2]

/-- A witness for C7 (amended): the wrappers of two distinct `int` descriptors
compare equal. -/
theorem type_equal_operator_spec_witness :
    type_equal_operator sampleTypes sampleIsSame sampleObjects 6 7 = .ok true :=
  (type_equal_operator_spec sampleTypes sampleIsSame sampleClasses sampleObjects 6 7 0 1
    (by
      intro a b h
      simp only [sampleIsSame, Bool.and_eq_true, decide_eq_true_eq] at h
      exact h.1.1)
    ⟨⟨0, 9, some 0, "int", false⟩, rfl, rfl, rfl⟩
    ⟨⟨0, 9, some 1, "int", false⟩, rfl, rfl, rfl⟩).2.2.1 (by decide)

/-! ## Claims on the test-suite helpers -/

theorem write_int32_other (mem : Memory) (q : Nat) (v : Int) (x : Nat)
    (h : x < q ∨ q + 4 ≤ x) : write_int32 mem q v x = mem x := by
  simp only [write_int32]
  rw [write_other _ _ _ _ (by omega), write_other _ _ _ _ (by omega),
    write_other _ _ _ _ (by omega), write_other _ _ _ _ (by omega)]

theorem read_int32_congr (m1 m2 : Memory) (p : Nat)
    (h : ∀ i, i < 4 → m1 (p + i) = m2 (p + i)) : read_int32 m1 p = read_int32 m2 p := by
  have h0 := h 0 (by omega)
  have h1 := h 1 (by omega)
  have h2 := h 2 (by omega)
  have h3 := h 3 (by omega)
  simp only [Nat.add_zero] at h0
  simp only [read_int32, h0, h1, h2, h3]

theorem read_write_int32_other (mem : Memory) (p q : Nat) (v : Int)
    (h : p + 4 ≤ q ∨ q + 4 ≤ p) : read_int32 (write_int32 mem q v) p = read_int32 mem p := by
  apply read_int32_congr
  intro i hi
  exact write_int32_other mem q v (p + i) (by omega)

theorem read_write_int32_same (mem : Memory) (p : Nat) (v : Int)
    (hlo : -2147483648 ≤ v) (hhi : v < 2147483648) :
    read_int32 (write_int32 mem p v) p = v := by
  have b0 : write_int32 mem p v p = toUChar (v % 4294967296).toNat := by
    simp only [write_int32]
    rw [write_other _ _ _ _ (by omega), write_other _ _ _ _ (by omega),
      write_other _ _ _ _ (by omega), write_same]
  have b1 : write_int32 mem p v (p + 1) = toUChar ((v % 4294967296).toNat / 256) := by
    simp only [write_int32]
    rw [write_other _ _ _ _ (by omega), write_other _ _ _ _ (by omega), write_same]
  have b2 : write_int32 mem p v (p + 2) = toUChar ((v % 4294967296).toNat / 65536) := by
    simp only [write_int32]
    rw [write_other _ _ _ _ (by omega), write_same]
  have b3 : write_int32 mem p v (p + 3) = toUChar ((v % 4294967296).toNat / 16777216) := by
    simp only [write_int32]
    rw [write_same]
  simp only [read_int32, b0, b1, b2, b3, toUChar]
  split <;> omega

/-- C10: over a layout of `struct A` with disjoint fields,
`check_struct_A_value` is true exactly when the four fields read at their
offsets are 10, 20, 30 and 40; and whatever the region held,
`set_struct_A_value` returns the Value it was given and
`check_struct_A_value` is true afterwards. -/
theorem struct_A_set_then_check (l : LayoutA) (hl : l.Disjoint) (mem : Memory) (ra : Value) :
    (check_struct_A_value l mem ra = true ↔
      (read_int32 mem (ra.data + l.a) = 10 ∧ read_int32 mem (ra.data + l.b) = 20 ∧
        read_int32 mem (ra.data + l.c) = 30 ∧ read_int32 mem (ra.data + l.d) = 40)) ∧
    (set_struct_A_value l mem ra).2 = ra ∧
    check_struct_A_value l (set_struct_A_value l mem ra).1 ra = true := by
  obtain ⟨hab, hac, had, hbc, hbd, hcd⟩ := hl
  refine ⟨?_, rfl, ?_⟩
  · simp [check_struct_A_value, do_check_struct_A_value, Value.getData]
  · simp only [check_struct_A_value, do_check_struct_A_value, set_struct_A_value,
      do_set_struct_A_value, Value.getData]
    have ha : read_int32 (write_int32 (write_int32 (write_int32 (write_int32 mem
        (ra.data + l.a) 10) (ra.data + l.b) 20) (ra.data + l.c) 30) (ra.data + l.d) 40)
        (ra.data + l.a) = 10 := by
      rw [read_write_int32_other _ _ _ _ (by omega), read_write_int32_other _ _ _ _ (by omega),
        read_write_int32_other _ _ _ _ (by omega),
        read_write_int32_same _ _ _ (by decide) (by decide)]
    have hb : read_int32 (write_int32 (write_int32 (write_int32 (write_int32 mem
        (ra.data + l.a) 10) (ra.data + l.b) 20) (ra.data + l.c) 30) (ra.data + l.d) 40)
        (ra.data + l.b) = 20 := by
      rw [read_write_int32_other _ _ _ _ (by omega), read_write_int32_other _ _ _ _ (by omega),
        read_write_int32_same _ _ _ (by decide) (by decide)]
    have hc : read_int32 (write_int32 (write_int32 (write_int32 (write_int32 mem
        (ra.data + l.a) 10) (ra.data + l.b) 20) (ra.data + l.c) 30) (ra.data + l.d) 40)
        (ra.data + l.c) = 30 := by
      rw [read_write_int32_other _ _ _ _ (by omega),
        read_write_int32_same _ _ _ (by decide) (by decide)]
    have hd : read_int32 (write_int32 (write_int32 (write_int32 (write_int32 mem
        (ra.data + l.a) 10) (ra.data + l.b) 20) (ra.data + l.c) 30) (ra.data + l.d) 40)
        (ra.data + l.d) = 40 := by
      rw [read_write_int32_same _ _ _ (by decide) (by decide)]
    simp [ha, hb, hc, hd]

/-- A witness for C10: the packed layout `{a: 0, b: 4, c: 8, d: 12}` over a
region of `0xFF` bytes. -/
theorem struct_A_set_then_check_witness :
    LayoutA.packed.Disjoint ∧
    check_struct_A_value LayoutA.packed
      (set_struct_A_value LayoutA.packed (fun _ => 255)
        { data := 32, type := TypeDesc.compound "/A" 16 [] }).1
      { data := 32, type := TypeDesc.compound "/A" 16 [] } = true :=
  ⟨by decide,
    (struct_A_set_then_check LayoutA.packed (by decide) (fun _ => 255)
      { data := 32, type := TypeDesc.compound "/A" 16 [] }).2.2⟩

end Typelib
